import Mathlib

/-!
Verification of the MC-Boost photon-transport engine (Monte Carlo photon
propagation through a layered turbid medium).

The development shallowly embeds the C++ sources: `Photon::drop`,
`Photon::performRoulette`, `Photon::spin`, `Photon::hitMediumBoundary`,
`Photon::getMediumReflectance`, `Photon::specularReflectance`, the
hybrid-Tausworthe RNG (`Photon::TausStep`, `Photon::LCGStep`,
`Photon::HybridTaus`), `Photon::updateLocalWeightArray`, and
`Medium::getLayerBelowCurrent`.  IEEE doubles are idealised as exact
rationals (for the walker state machine, where all claim-relevant
arithmetic is field arithmetic) or exact reals (for the trigonometric
Fresnel / scattering code); 32-bit unsigned integers are naturals reduced
modulo 2^32 at every overflowing operation.
-/

namespace MCBoost

/-- Cartesian coordinates of a point in the medium (struct coords). -/
structure Coords where
  x : ℚ
  y : ℚ
  z : ℚ
deriving DecidableEq

/-- Modelled from the spec: the Absorber class (absorber.h / absorber.cpp,
sphereAbsorber) is not among the sources; per spec section 4.4 an absorber is
a shape (here a sphere: center + radius) with local optical coefficients
mu_a, mu_s, a closed-boundary containment test, and a deposited-energy
accumulator updated by deposit(). -/
structure Absorber where
  mu_a : ℚ
  mu_s : ℚ
  cx : ℚ
  cy : ℚ
  cz : ℚ
  radius : ℚ
  deposited : ℚ
deriving DecidableEq

/-- Modelled from the spec: closed-boundary point containment for a
(spherical) absorber, spec section 4.4. -/
def Absorber.containsPoint (a : Absorber) (p : Coords) : Prop :=
  (p.x - a.cx) ^ 2 + (p.y - a.cy) ^ 2 + (p.z - a.cz) ^ 2 ≤ a.radius ^ 2

instance (a : Absorber) (p : Coords) : Decidable (a.containsPoint p) := by
  unfold Absorber.containsPoint
  infer_instance

/-- Modelled from the spec: the Layer class (layer.h / layer.cpp) is not among
the sources; per spec section 4.5 a layer is an axial slab with background
optical properties mu_a, mu_s, anisotropy g, refractive index n, depth
interval, and a list of embedded absorbers. -/
structure Layer where
  mu_a : ℚ
  mu_s : ℚ
  anisotropy : ℚ
  refractive_index : ℚ
  depth_start : ℚ
  depth_end : ℚ
  absorbers : List Absorber
deriving DecidableEq

/-- Modelled from the spec: Layer::getAbsorber returns the first absorber in
insertion order whose region contains the point, spec section 4.5
(lookup_absorber). -/
def Layer.getAbsorber (L : Layer) (p : Coords) : Option Absorber :=
  L.absorbers.find? (fun a => decide (a.containsPoint p))

/-- Modelled from the spec: Absorber::updateAbsorbedWeight adds the absorbed
energy to the deposited-energy accumulator of the first absorber of the layer
containing the point (the one Layer::getAbsorber returns), spec section 4.4
(deposit). -/
def depositFirst : List Absorber → Coords → ℚ → List Absorber
  | [], _, _ => []
  | a :: rest, p, e =>
      if a.containsPoint p then { a with deposited := a.deposited + e } :: rest
      else a :: depositFirst rest p e

/-- Modelled from the spec: Layer::getTotalAttenuationCoeff point-aware total
attenuation, spec section 4.5: mu_a(point) + mu_s(point) where the
coefficients come from the absorber containing the point if any, else from
the layer background. -/
def Layer.totalAttenuationAt (L : Layer) (p : Coords) : ℚ :=
  match L.getAbsorber p with
  | some a => a.mu_a + a.mu_s
  | none => L.mu_a + L.mu_s

/-- Medium geometry: bounds of the box plus the ordered stack of layers
(medium.h / medium.cpp). -/
structure Medium where
  x_bound : ℚ
  y_bound : ℚ
  z_bound : ℚ
  layers : List Layer
deriving DecidableEq

/-- Number of radial positions set by Medium::initCommon:
num_radial_pos = MAX_BINS - 1 (medium.cpp line 45).  MAX_BINS itself is
defined in a header not among the sources; the spec (section 9) records that
the source allocates a planar array of size 101, so MAX_BINS = 101 here; no
claim depends on the exact value. -/
def MAX_BINS : ℕ := 101

/-- THRESHOLD for roulette, photon.h: 0.01. -/
def THRESHOLD : ℚ := 1 / 100

/-- CHANCE used in roulette, photon.h: 0.1. -/
def CHANCE : ℚ := 1 / 10

/-- Photon walker state: the fields of class Photon that the verified
operations read or write (photon.h).  status true = ALIVE, false = DEAD. -/
structure PhotonState where
  status : Bool
  weight : ℚ
  tagged : Bool
  x : ℚ
  y : ℚ
  z : ℚ
  dirx : ℚ
  diry : ℚ
  dirz : ℚ
  step : ℚ
  step_remainder : ℚ
  hit_x_bound : Bool
  hit_y_bound : Bool
  hit_z_bound : Bool
  currLayer : Layer
  local_Cplanar : List ℚ
  radial_bin_size : ℚ
  num_radial_pos : ℕ
deriving DecidableEq

/-- Current location of the photon as a coordinate triple. -/
def PhotonState.loc (s : PhotonState) : Coords := ⟨s.x, s.y, s.z⟩

/-- Photon::drop (photon.cpp lines 695-763): absorber-aware albedo,
weight decrement, absorber deposit and tagging.  The deposit into the local
planar array (updateLocalWeightArray) is commented out in the source
(line 761), so drop leaves local_Cplanar unchanged. -/
def drop (s : PhotonState) : PhotonState :=
  if s.status = false then s
  else
    match s.currLayer.getAbsorber s.loc with
    | some a =>
        let albedo := a.mu_s / (a.mu_a + a.mu_s)
        let absorbed := s.weight * (1 - albedo)
        { s with
            currLayer :=
              { s.currLayer with
                  absorbers := depositFirst s.currLayer.absorbers s.loc absorbed },
            tagged := true,
            weight := s.weight - absorbed }
    | none =>
        let albedo := s.currLayer.mu_s / (s.currLayer.mu_a + s.currLayer.mu_s)
        let absorbed := s.weight * (1 - albedo)
        { s with weight := s.weight - absorbed }

/-- Photon::updateLocalWeightArray (photon.cpp lines 767-776): deposit energy
in the local planar bin at index floor(|z| / radial_bin_size), clamped to
num_radial_pos. -/
def updateLocalWeightArray (s : PhotonState) (absorbed : ℚ) : PhotonState :=
  let r : ℚ := |s.z|
  let ir0 : ℕ := (⌊r / s.radial_bin_size⌋).toNat
  let ir : ℕ := if ir0 ≥ s.num_radial_pos then s.num_radial_pos else ir0
  { s with local_Cplanar := s.local_Cplanar.set ir (s.local_Cplanar.getD ir 0 + absorbed) }

/-- Photon::performRoulette (photon.cpp lines 844-861); u is the RNG draw. -/
def performRoulette (s : PhotonState) (u : ℚ) : PhotonState :=
  if s.status = false then s
  else if s.weight < THRESHOLD then
    if u ≤ CHANCE then { s with weight := s.weight / CHANCE }
    else { s with status := false }
  else s

/-- Photon::specularReflectance (photon.cpp lines 1382-1386) as a function of
the two refractive indices and the incoming weight. -/
def specularReflectance (n1 n2 weight : ℚ) : ℚ :=
  weight - ((n1 - n2) ^ 2 / (n1 + n2) ^ 2) * weight

/-- Projected x coordinate after the tentative step
(x_step in Photon::hitMediumBoundary). -/
def projX (s : PhotonState) : ℚ := s.step * s.dirx + s.x

/-- Projected y coordinate after the tentative step. -/
def projY (s : PhotonState) : ℚ := s.step * s.diry + s.y

/-- Projected z coordinate after the tentative step. -/
def projZ (s : PhotonState) : ℚ := s.step * s.dirz + s.z

/-- Crossing test on the x axis used by Photon::hitMediumBoundary:
the projected position reaches or passes a face of the box. -/
def crossX (m : Medium) (s : PhotonState) : Prop :=
  projX s ≥ m.x_bound ∨ projX s ≤ 0

/-- Crossing test on the y axis. -/
def crossY (m : Medium) (s : PhotonState) : Prop :=
  projY s ≥ m.y_bound ∨ projY s ≤ 0

/-- Crossing test on the z axis. -/
def crossZ (m : Medium) (s : PhotonState) : Prop :=
  projZ s ≥ m.z_bound ∨ projZ s ≤ 0

instance (m : Medium) (s : PhotonState) : Decidable (crossX m s) := by
  unfold crossX; infer_instance

instance (m : Medium) (s : PhotonState) : Decidable (crossY m s) := by
  unfold crossY; infer_instance

instance (m : Medium) (s : PhotonState) : Decidable (crossZ m s) := by
  unfold crossZ; infer_instance

/-- Distance to the x boundary computed by Photon::hitMediumBoundary when the
x axis is crossed. -/
def distX (m : Medium) (s : PhotonState) : ℚ :=
  if s.dirx > 0 then (m.x_bound - s.x) / s.dirx else |s.x / s.dirx|

/-- Distance to the y boundary. -/
def distY (m : Medium) (s : PhotonState) : ℚ :=
  if s.diry > 0 then (m.y_bound - s.y) / s.diry else |s.y / s.diry|

/-- Distance to the z boundary. -/
def distZ (m : Medium) (s : PhotonState) : ℚ :=
  if s.dirz > 0 then (m.z_bound - s.z) / s.dirz else |s.z / s.dirz|

/-- Photon::hitMediumBoundary (photon.cpp lines 1188-1336).  Returns the
boolean result together with the updated photon state.  The translation is
line-faithful: the hit flags are assigned inside the per-axis crossing tests
(before the final step-versus-distance comparison), the pairwise cascade
resolves multiple crossings (the three-axis arm is kept even though the
first arm shadows it), and the single-axis arm sums the three distances
(the two uncrossed ones are still 0). -/
def hitMediumBoundary (m : Medium) (s : PhotonState) : Bool × PhotonState :=
  let mu_t := s.currLayer.totalAttenuationAt s.loc
  let hx := if crossX m s then true else s.hit_x_bound
  let dX := if crossX m s then distX m s else 0
  let hy := if crossY m s then true else s.hit_y_bound
  let dY := if crossY m s then distY m s else 0
  let hz := if crossZ m s then true else s.hit_z_bound
  let dZ := if crossZ m s then distZ m s else 0
  if hx = false ∧ hy = false ∧ hz = false then (false, s)
  else
    let sel : ℚ × Bool × Bool × Bool :=
      if hx = true ∧ hy = true then
        if dX < dY then (dX, true, false, false) else (dY, false, true, false)
      else if hx = true ∧ hz = true then
        if dX < dZ then (dX, true, false, false) else (dZ, false, false, true)
      else if hy = true ∧ hz = true then
        if dY < dZ then (dY, false, true, false) else (dZ, false, false, true)
      else if hx = true ∧ hy = true ∧ hz = true then
        (if dX < dY then (if dX < dZ then dX else dZ) else (if dY < dZ then dY else dZ),
          true, false, false)
      else
        (dX + dY + dZ, hx, hy, hz)
    let s1 := { s with
                  hit_x_bound := sel.2.1,
                  hit_y_bound := sel.2.2.1,
                  hit_z_bound := sel.2.2.2 }
    if s.step > sel.1 then
      (true, { s1 with step_remainder := (s.step - sel.1) * mu_t, step := sel.1 })
    else
      (false, s1)

/-- Photon::internallyReflectX (photon.cpp lines 1409-1415): invert the x
direction cosine and reset the x hit flag. -/
def internallyReflectX (s : PhotonState) : PhotonState :=
  { s with dirx := -1 * s.dirx, hit_x_bound := false }

/-- Photon::internallyReflectY (photon.cpp lines 1399-1405). -/
def internallyReflectY (s : PhotonState) : PhotonState :=
  { s with diry := -1 * s.diry, hit_y_bound := false }

/-- Photon::internallyReflectZ (photon.cpp lines 1390-1396). -/
def internallyReflectZ (s : PhotonState) : PhotonState :=
  { s with dirz := -1 * s.dirz, hit_z_bound := false }

/-- Photon::transmitOrReflect with the "medium" argument (photon.cpp lines
1002-1042) as it acts on the walker state.  R is the value of
getMediumReflectance() and u the RNG draw it is compared against; u2 is the
draw consumed by the roulette that follows an internal reflection.  In the
transmit arm, Photon::transmit("medium") only logs exit data and kills the
photon (weight untouched). -/
def transmitOrReflectMedium (s : PhotonState) (R u u2 : ℚ) : PhotonState :=
  if R > u then
    let s1 :=
      if s.hit_x_bound then internallyReflectX s
      else if s.hit_y_bound then internallyReflectY s
      else if s.hit_z_bound then internallyReflectZ s
      else s
    performRoulette (drop s1) u2
  else
    { s with status := false }

/-- Result of the C++ expression return *(++it) modulo iterator validity:
the loop in Medium::getLayerBelowCurrent either returns NULL, returns a
dereferenced valid layer pointer, or dereferences the past-the-end iterator
(undefined behaviour). -/
inductive LayerLookup where
  | nullLayer : LayerLookup
  | found : Layer → LayerLookup
  | derefEnd : LayerLookup
deriving DecidableEq

/-- Loop body of Medium::getLayerBelowCurrent (medium.cpp in part_000, lines
223-230): walk the layer vector; on the first layer whose depth interval
contains z, return the next layer — incrementing the iterator first, so if
the match is the last layer the past-the-end iterator is dereferenced. -/
def belowLoop (z : ℚ) : List Layer → LayerLookup
  | [] => .nullLayer
  | [l] =>
      if l.depth_start ≤ z ∧ l.depth_end ≥ z then .derefEnd else .nullLayer
  | l :: l2 :: rest =>
      if l.depth_start ≤ z ∧ l.depth_end ≥ z then .found l2
      else belowLoop z (l2 :: rest)

/-- Medium::getLayerBelowCurrent (part_000 lines 206-237).  The assert on
0 ≤ z ≤ z_bound is carried as a hypothesis of the theorems. -/
def Medium.getLayerBelowCurrent (m : Medium) (z : ℚ) : LayerLookup :=
  if m.layers.length = 1 then .nullLayer
  else if z = m.z_bound then .nullLayer
  else belowLoop z m.layers

/-- Photon::TausStep (photon.cpp lines 1419-1424) on naturals, with the
32-bit wrap of the left shifts made explicit. -/
def TausStep (z : ℕ) (s1 s2 s3 : ℕ) (M : ℕ) : ℕ :=
  let b := ((z <<< s1) % 2 ^ 32 ^^^ z) >>> s2
  ((z &&& M) <<< s3) % 2 ^ 32 ^^^ b

/-- Photon::LCGStep (photon.cpp lines 1427-1430). -/
def LCGStep (z : ℕ) (A C : ℕ) : ℕ := (A * z + C) % 2 ^ 32

/-- State words z1..z4 of the thread-safe RNG (photon.h). -/
structure RNGState where
  z1 : ℕ
  z2 : ℕ
  z3 : ℕ
  z4 : ℕ
deriving DecidableEq

/-- One update of all four RNG state words, as performed (by reference) by
the TausStep / LCGStep calls inside Photon::HybridTaus. -/
def rngStep (s : RNGState) : RNGState :=
  ⟨TausStep s.z1 13 19 12 4294967294,
   TausStep s.z2 2 25 4 4294967288,
   TausStep s.z3 3 11 17 4294967280,
   LCGStep s.z4 1664525 1013904223⟩

/-- Combined 32-bit output word of Photon::HybridTaus: the XOR of the three
Tausworthe steps and the LCG step. -/
def hybridTausWord (s : RNGState) : ℕ :=
  (rngStep s).z1 ^^^ (rngStep s).z2 ^^^ (rngStep s).z3 ^^^ (rngStep s).z4

/-- Photon::HybridTaus (photon.cpp lines 1432-1441): multiply the combined
word by the literal 2.3283064365387e-10. -/
def HybridTaus (s : RNGState) : ℚ :=
  (23283064365387 : ℚ) / 10 ^ 23 * (hybridTausWord s : ℚ)

/-- Photon::getRandNum (photon.cpp lines 1444-1448) just forwards to
HybridTaus. -/
def getRandNum (s : RNGState) : ℚ := HybridTaus s

/-- Axis direction cosine selected by the flag chain at the top of
Photon::getMediumReflectance (photon.cpp lines 1065-1071). -/
def axisDirSel (hitx hity : Bool) (dx dy dz : ℝ) : ℝ :=
  if hitx then dx else if hity then dy else dz

/-- Photon::getMediumReflectance (photon.cpp lines 1052-1098): Fresnel
reflectance at a medium (tissue/air) boundary.  n1 is the refractive index
of the current layer, outside is air (n2 = 1).  The function also depends on
which hit flag is set, through the selected axis direction cosine. -/
noncomputable def getMediumReflectance (n1 : ℝ) (hitx hity : Bool) (dx dy dz : ℝ) : ℝ :=
  let n2 : ℝ := 1
  let axis_direction := axisDirSel hitx hity dx dy dz
  let incident_angle := Real.arccos |axis_direction|
  let critical_angle := Real.arcsin (n2 / n1)
  if incident_angle > critical_angle then 1
  else
    let transmission_angle := Real.arcsin (n1 / n2 * Real.sin incident_angle)
    1 / 2 * (Real.sin (incident_angle - transmission_angle) ^ 2
               / Real.sin (incident_angle + transmission_angle) ^ 2
             + Real.tan (incident_angle - transmission_angle) ^ 2
               / Real.tan (incident_angle + transmission_angle) ^ 2)

/-- Direction cosines of the photon, over the reals (used for the
trigonometric scattering code). -/
structure Dir where
  dx : ℝ
  dy : ℝ
  dz : ℝ

/-- Squared norm of the direction cosines. -/
def normSq (d : Dir) : ℝ := d.dx ^ 2 + d.dy ^ 2 + d.dz ^ 2

/-- SIGN macro from photon.h: 1 for nonnegative arguments, else -1. -/
noncomputable def SIGN (x : ℝ) : ℝ := if x ≥ 0 then 1 else -1

/-- PI macro from photon.h (3.14159265, not the exact pi). -/
def PIc : ℝ := 3.14159265

/-- ONE_MINUS_COSZERO from photon.h. -/
def ONE_MINUS_COSZERO : ℝ := 1e-12

/-- Cosine of the scattering deflection angle sampled in Photon::spin
(photon.cpp lines 799-805): Henyey-Greenstein inverse CDF for anisotropy g
and uniform draw u1. -/
noncomputable def spinCosTheta (g u1 : ℝ) : ℝ :=
  if g = 0 then 2 * u1 - 1
  else
    let temp := (1 - g * g) / (1 - g + 2 * g * u1)
    (1 + g * g - temp * temp) / (2 * g)

/-- sin_theta computed by Photon::spin: the square root of one minus the
squared Henyey-Greenstein cosine. -/
noncomputable def spinSinTheta (g u1 : ℝ) : ℝ :=
  Real.sqrt (1 - spinCosTheta g u1 * spinCosTheta g u1)

/-- cos_psi computed by Photon::spin: the cosine of psi = 2·PI·u2, psi being
the sampled azimuth and PI the source macro. -/
noncomputable def spinCosPsi (u2 : ℝ) : ℝ := Real.cos (2 * PIc * u2)

/-- sin_psi computed by Photon::spin: the square root of one minus the
squared cosine, negated for psi ≥ PI. -/
noncomputable def spinSinPsi (u2 : ℝ) : ℝ :=
  if 2 * PIc * u2 < PIc then Real.sqrt (1 - spinCosPsi u2 * spinCosPsi u2)
  else -Real.sqrt (1 - spinCosPsi u2 * spinCosPsi u2)

/-- temp = sqrt(1 - dz²) of the usual branch of Photon::spin. -/
noncomputable def spinTemp (d : Dir) : ℝ := Real.sqrt (1 - d.dz * d.dz)

/-- Direction update performed by Photon::spin (photon.cpp lines 780-840),
parameterised by the layer anisotropy g and the two RNG draws u1 (deflection)
and u2 (azimuth).  Line-faithful: sin_theta and sin_psi are square roots of
one minus the squared cosines, the azimuth psi uses the source PI constant,
and the near-perpendicular branch is selected by 1 - |dz| ≤
ONE_MINUS_COSZERO. -/
noncomputable def spinDir (g u1 u2 : ℝ) (d : Dir) : Dir :=
  if 1 - |d.dz| ≤ ONE_MINUS_COSZERO then
    ⟨spinSinTheta g u1 * spinCosPsi u2,
     spinSinTheta g u1 * spinSinPsi u2,
     spinCosTheta g u1 * SIGN d.dz⟩
  else
    ⟨spinSinTheta g u1 * (d.dx * d.dz * spinCosPsi u2 - d.dy * spinSinPsi u2) / spinTemp d
       + d.dx * spinCosTheta g u1,
     spinSinTheta g u1 * (d.dy * d.dz * spinCosPsi u2 + d.dx * spinSinPsi u2) / spinTemp d
       + d.dy * spinCosTheta g u1,
     -spinSinTheta g u1 * spinCosPsi u2 * spinTemp d + d.dz * spinCosTheta g u1⟩

/-- Initial direction cosines set by Photon::initTrajectory (photon.cpp lines
356-368): d = (sin_theta cos psi, sin_theta sin psi, 1.0). -/
noncomputable def initDir (u1 u2 : ℝ) : Dir :=
  let cos_theta := 2 * u1 - 1
  let sin_theta := Real.sqrt (1 - cos_theta * cos_theta)
  let psi := 2 * PIc * u2
  ⟨sin_theta * Real.cos psi, sin_theta * Real.sin psi, 1⟩

/-- Directions reachable by an alive photon from injection: the initial
trajectory, followed by any sequence of spins (with anisotropy g in [-1,1]
and RNG draws in (0,1)) and internal reflections (sign flips of one
component).  These are the only operations of the propagation loop that
modify the direction cosines (transmit through a layer is unreachable:
checkLayerBoundary is commented out in Photon::propagatePhoton). -/
inductive ReachableDir : Dir → Prop where
  | init (u1 u2 : ℝ) (h0 : 0 < u1) (h1 : u1 < 1) : ReachableDir (initDir u1 u2)
  | spin (g u1 u2 : ℝ) (d : Dir) (hg0 : -1 ≤ g) (hg1 : g ≤ 1)
      (hu0 : 0 < u1) (hu1 : u1 < 1) (hd : ReachableDir d) :
      ReachableDir (spinDir g u1 u2 d)
  | reflX (d : Dir) (hd : ReachableDir d) : ReachableDir ⟨-d.dx, d.dy, d.dz⟩
  | reflY (d : Dir) (hd : ReachableDir d) : ReachableDir ⟨d.dx, -d.dy, d.dz⟩
  | reflZ (d : Dir) (hd : ReachableDir d) : ReachableDir ⟨d.dx, d.dy, -d.dz⟩

/-! Concrete fixtures used by witnesses and counterexamples. -/

/-- Sample single layer covering depths 0..2 with mu_a = mu_s = 1, g = 0,
n = 1 and no absorbers. -/
def layer0 : Layer := ⟨1, 1, 0, 1, 0, 2, []⟩

/-- Sample photon state used as the base of concrete instantiations:
alive, full weight, at (1,1,1) moving along +z, flags clear. -/
def baseState : PhotonState :=
  { status := true
    weight := 1
    tagged := false
    x := 1
    y := 1
    z := 1
    dirx := 0
    diry := 0
    dirz := 1
    step := 0
    step_remainder := 0
    hit_x_bound := false
    hit_y_bound := false
    hit_z_bound := false
    currLayer := layer0
    local_Cplanar := List.replicate MAX_BINS 0
    radial_bin_size := 3 / 100
    num_radial_pos := MAX_BINS - 1 }

/-- Sample 2x2x2 medium holding the single sample layer. -/
def boxMedium : Medium := ⟨2, 2, 2, [layer0]⟩

/-! ### C3 — roulette -/

/-- C3: for every alive photon, performRoulette() changes nothing when
w ≥ 0.01 = THRESHOLD; when w < 0.01 it either sets w to w / 0.1 (exactly a
factor 10) when the draw u ≤ 0.1 = CHANCE, or marks the photon DEAD with w
unchanged otherwise. -/
theorem performRoulette_claim (s : PhotonState) (u : ℚ) (halive : s.status = true) :
    (THRESHOLD ≤ s.weight → performRoulette s u = s) ∧
    (s.weight < THRESHOLD → u ≤ CHANCE →
      performRoulette s u = { s with weight := s.weight / CHANCE } ∧
      s.weight / CHANCE = 10 * s.weight) ∧
    (s.weight < THRESHOLD → CHANCE < u →
      performRoulette s u = { s with status := false }) := by
  unfold performRoulette
  rw [halive]
  refine ⟨fun hw => ?_, fun hw hu => ⟨?_, ?_⟩, fun hw hu => ?_⟩
  · rw [if_neg (by simp), if_neg (not_lt.mpr hw)]
  · rw [if_neg (by simp), if_pos hw, if_pos hu]
  · rw [CHANCE]
    field_simp
    ring
  · rw [if_neg (by simp), if_pos hw, if_neg (not_le.mpr hu)]

/-- Witness for C3 at the weights of scenario S6: w = 0.005 and u = 0.05
survive roulette with w becoming exactly 0.05. -/
theorem performRoulette_claim_witness :
    ({ baseState with weight := 1 / 200 } : PhotonState).weight = 1 / 200 ∧
    (performRoulette { baseState with weight := 1 / 200 } (1 / 20)).weight = 1 / 20 ∧
    ((THRESHOLD ≤ (1 / 200 : ℚ) →
        performRoulette { baseState with weight := 1 / 200 } (1 / 20) =
          { baseState with weight := 1 / 200 }) ∧
      ((1 / 200 : ℚ) < THRESHOLD → (1 / 20 : ℚ) ≤ CHANCE →
        performRoulette { baseState with weight := 1 / 200 } (1 / 20) =
          { baseState with weight := (1 / 200 : ℚ) / CHANCE } ∧
        (1 / 200 : ℚ) / CHANCE = 10 * (1 / 200 : ℚ)) ∧
      ((1 / 200 : ℚ) < THRESHOLD → CHANCE < (1 / 20 : ℚ) →
        performRoulette { baseState with weight := 1 / 200 } (1 / 20) =
          { baseState with weight := 1 / 200, status := false })) :=
  ⟨rfl,
    by norm_num [performRoulette, THRESHOLD, CHANCE, baseState],
    performRoulette_claim { baseState with weight := 1 / 200 } (1 / 20) rfl⟩

/-! ### C9 — specular reflectance -/

/-- C9: specularReflectance(n1, n2) sets the weight to
w − ((n1−n2)/(n1+n2))²·w; in particular for n1 = 1 and n2 = 1.33 the weight
is reduced by exactly the fraction ((1−1.33)/(1+1.33))². -/
theorem specularReflectance_claim (n1 n2 w : ℚ) :
    specularReflectance n1 n2 w = w - ((n1 - n2) / (n1 + n2)) ^ 2 * w ∧
    specularReflectance 1 (133 / 100) w =
      w - ((1 - 133 / 100) / (1 + 133 / 100)) ^ 2 * w := by
  constructor
  · unfold specularReflectance
    rw [div_pow]
  · unfold specularReflectance
    rw [div_pow]

/-! ### C8 — getLayerBelowCurrent -/

/-- Sample two-layer medium: layers [0,1] and [1,2] contiguously covering
depth 0..2 = z_bound. -/
def twoLayerMedium : Medium :=
  ⟨2, 2, 2, [⟨1, 1, 0, 1, 0, 1, []⟩, ⟨1, 1, 0, 1, 1, 2, []⟩]⟩

/-- C8 failing input: for z = 3/2 — a valid depth (0 ≤ z ≤ z_bound) lying
strictly inside the bottom layer [1,2] of a sorted contiguous two-layer
stack — Medium::getLayerBelowCurrent ends its scan at the last layer and
executes return *(++it), dereferencing the past-the-end iterator instead of
returning NULL. -/
theorem getLayerBelowCurrent_oob :
    (0 ≤ (3 / 2 : ℚ) ∧ (3 / 2 : ℚ) ≤ twoLayerMedium.z_bound) ∧
    (∃ l, twoLayerMedium.layers.getLast? = some l ∧
      l.depth_start ≤ 3 / 2 ∧ (3 / 2 : ℚ) ≤ l.depth_end) ∧
    twoLayerMedium.getLayerBelowCurrent (3 / 2) = LayerLookup.derefEnd := by
  refine ⟨by norm_num [twoLayerMedium],
    ⟨⟨1, 1, 0, 1, 1, 2, []⟩, by norm_num [twoLayerMedium]⟩, ?_⟩
  norm_num [Medium.getLayerBelowCurrent, twoLayerMedium, belowLoop]

/-! ### C4 — RNG range -/

/-- RNG state with all four words ≥ 128 whose very next draw XORs to the
32-bit word 0: z4 solves 1664525·z4 + 1013904223 ≡ T1 ^ T2 ^ T3 (mod 2^32)
for z1 = z2 = z3 = 128. -/
def rngZeroState : RNGState := ⟨128, 128, 128, 2978277743⟩

/-- C4 counterexample: a state with every word ≥ 128 (and a valid 32-bit
word) for which HybridTaus returns exactly 0, contradicting the claim that
every draw is strictly greater than 0. -/
theorem hybridTaus_claim_counterexample :
    128 ≤ rngZeroState.z1 ∧ 128 ≤ rngZeroState.z2 ∧
    128 ≤ rngZeroState.z3 ∧ 128 ≤ rngZeroState.z4 ∧
    rngZeroState.z1 < 2 ^ 32 ∧ rngZeroState.z2 < 2 ^ 32 ∧
    rngZeroState.z3 < 2 ^ 32 ∧ rngZeroState.z4 < 2 ^ 32 ∧
    HybridTaus rngZeroState = 0 := by
  have hword : hybridTausWord rngZeroState = 0 := by decide
  refine ⟨by decide, by decide, by decide, by decide,
    by decide, by decide, by decide, by decide, ?_⟩
  rw [HybridTaus, hword]
  norm_num

/-- Every TausStep output fits in 32 bits. -/
lemma tausStep_lt (z s1 s2 s3 M : ℕ) (hz : z < 2 ^ 32) :
    TausStep z s1 s2 s3 M < 2 ^ 32 := by
  unfold TausStep
  refine Nat.xor_lt_two_pow (Nat.mod_lt _ (by positivity)) ?_
  calc ((z <<< s1) % 2 ^ 32 ^^^ z) >>> s2
      ≤ (z <<< s1) % 2 ^ 32 ^^^ z := by
        rw [Nat.shiftRight_eq_div_pow]
        exact Nat.div_le_self _ _
    _ < 2 ^ 32 := Nat.xor_lt_two_pow (Nat.mod_lt _ (by positivity)) hz

/-- The combined HybridTaus output word fits in 32 bits. -/
lemma hybridTausWord_lt (s : RNGState) (h1 : s.z1 < 2 ^ 32) (h2 : s.z2 < 2 ^ 32)
    (h3 : s.z3 < 2 ^ 32) (_h4 : s.z4 < 2 ^ 32) : hybridTausWord s < 2 ^ 32 := by
  unfold hybridTausWord rngStep LCGStep
  exact Nat.xor_lt_two_pow
    (Nat.xor_lt_two_pow
      (Nat.xor_lt_two_pow (tausStep_lt _ _ _ _ _ h1) (tausStep_lt _ _ _ _ _ h2))
      (tausStep_lt _ _ _ _ _ h3))
    (Nat.mod_lt _ (by positivity))

/-- C4 amended: for every 32-bit RNG state, HybridTaus returns a value that
is ≥ 0 and strictly less than 1 (the output can be exactly 0, so the
strictly-greater-than-0 half of the original claim fails). -/
theorem hybridTaus_claim_amended (s : RNGState) (h1 : s.z1 < 2 ^ 32)
    (h2 : s.z2 < 2 ^ 32) (h3 : s.z3 < 2 ^ 32) (h4 : s.z4 < 2 ^ 32) :
    0 ≤ HybridTaus s ∧ HybridTaus s < 1 := by
  have hword : hybridTausWord s < 2 ^ 32 := hybridTausWord_lt s h1 h2 h3 h4
  have hcast : (hybridTausWord s : ℚ) ≤ (2 ^ 32 - 1 : ℚ) := by
    have : hybridTausWord s ≤ 2 ^ 32 - 1 := by omega
    calc (hybridTausWord s : ℚ) ≤ ((2 ^ 32 - 1 : ℕ) : ℚ) := by exact_mod_cast this
      _ = (2 ^ 32 - 1 : ℚ) := by norm_num
  constructor
  · unfold HybridTaus
    positivity
  · unfold HybridTaus
    calc (23283064365387 : ℚ) / 10 ^ 23 * (hybridTausWord s : ℚ)
        ≤ (23283064365387 : ℚ) / 10 ^ 23 * (2 ^ 32 - 1 : ℚ) := by
          apply mul_le_mul_of_nonneg_left hcast
          norm_num
      _ < 1 := by norm_num

/-- Witness for the amended C4 at the all-128 seed state. -/
theorem hybridTaus_claim_amended_witness :
    0 ≤ HybridTaus ⟨128, 128, 128, 128⟩ ∧ HybridTaus ⟨128, 128, 128, 128⟩ < 1 :=
  hybridTaus_claim_amended ⟨128, 128, 128, 128⟩ (by norm_num) (by norm_num)
    (by norm_num) (by norm_num)

/-! ### C1 — drop -/

/-- Relation between Layer::getAbsorber and the deposit of absorbed energy:
the first absorber containing the point (none of the earlier ones does)
is the one whose deposited accumulator grows. -/
lemma depositFirst_spec (p : Coords) (e : ℚ) :
    ∀ (l : List Absorber) (a : Absorber),
      l.find? (fun b => decide (b.containsPoint p)) = some a →
      ∃ i, l.get? i = some a ∧
        (∀ j, j < i → ∀ b, l.get? j = some b → ¬ b.containsPoint p) ∧
        depositFirst l p e = l.set i { a with deposited := a.deposited + e }
  | [], a, h => by simp at h
  | hd :: tl, a, h => by
      by_cases hc : hd.containsPoint p
      · have ha : hd = a := by
          rw [List.find?_cons_of_pos _ (by simpa using hc)] at h
          exact Option.some.inj h
        subst ha
        refine ⟨0, rfl, fun j hj => absurd hj (Nat.not_lt_zero j), ?_⟩
        simp [depositFirst, hc]
      · rw [List.find?_cons_of_neg _ (by simpa using hc)] at h
        obtain ⟨i, h1, h2, h3⟩ := depositFirst_spec p e tl a h
        refine ⟨i + 1, by simpa using h1, ?_, ?_⟩
        · intro j hj b hb
          cases j with
          | zero =>
              have : hd = b := Option.some.inj hb
              exact this ▸ hc
          | succ j => exact h2 j (by omega) b (by simpa using hb)
        · simp [depositFirst, hc, h3]

/-- Clamp used by updateLocalWeightArray, as a min. -/
lemma clamp_eq_min (a n : ℕ) : (if a ≥ n then n else a) = min a n := by
  split_ifs <;> omega

/-- C1, amended: drop() on an alive photon computes absorber-aware
coefficients at the current position, removes Δw = w·(1−albedo) from the
weight, and when inside an absorber deposits Δw into that (first containing)
absorber and sets tagged; it never touches the planar fluence array — the
accumulation call is commented out in the source — while the helper
updateLocalWeightArray(Δw) would accumulate at index ⌊|z|/dr⌋ clamped to
num_radial_pos = MAX_BINS − 1 (not MAX_BINS). -/
theorem drop_claim_amended (s : PhotonState) (halive : s.status = true) :
    (∀ a, s.currLayer.getAbsorber s.loc = some a →
      (drop s).weight = s.weight - s.weight * (1 - a.mu_s / (a.mu_a + a.mu_s)) ∧
      (drop s).tagged = true ∧
      (drop s).local_Cplanar = s.local_Cplanar ∧
      (∃ i, s.currLayer.absorbers.get? i = some a ∧
        (∀ j, j < i → ∀ b, s.currLayer.absorbers.get? j = some b →
          ¬ b.containsPoint s.loc) ∧
        (drop s).currLayer.absorbers =
          s.currLayer.absorbers.set i
            { a with deposited :=
                a.deposited + s.weight * (1 - a.mu_s / (a.mu_a + a.mu_s)) })) ∧
    (s.currLayer.getAbsorber s.loc = none →
      (drop s).weight =
        s.weight - s.weight * (1 - s.currLayer.mu_s / (s.currLayer.mu_a + s.currLayer.mu_s)) ∧
      (drop s).tagged = s.tagged ∧
      (drop s).local_Cplanar = s.local_Cplanar ∧
      (drop s).currLayer = s.currLayer) ∧
    (∀ absorbed, (updateLocalWeightArray s absorbed).local_Cplanar =
      s.local_Cplanar.set (min (⌊|s.z| / s.radial_bin_size⌋.toNat) s.num_radial_pos)
        (s.local_Cplanar.getD
          (min (⌊|s.z| / s.radial_bin_size⌋.toNat) s.num_radial_pos) 0 + absorbed)) := by
  refine ⟨fun a ha => ?_, fun ha => ?_, fun absorbed => ?_⟩
  · unfold drop
    rw [halive]
    simp only [Bool.true_eq_false, if_false, ha]
    refine ⟨trivial, trivial, trivial, ?_⟩
    exact depositFirst_spec s.loc (s.weight * (1 - a.mu_s / (a.mu_a + a.mu_s)))
      s.currLayer.absorbers a ha
  · unfold drop
    rw [halive]
    simp only [Bool.true_eq_false, if_false, ha]
    exact ⟨trivial, trivial, trivial, trivial⟩
  · simp only [updateLocalWeightArray, clamp_eq_min]

/-- Witness for the amended C1: a photon sitting inside a unit-radius
absorber centred at its position, with absorber coefficients mu_a = 3,
mu_s = 1 (albedo 1/4, Δw = 3/4). -/
def absLayer : Layer := ⟨1, 1, 0, 1, 0, 2, [⟨3, 1, 1, 1, 1, 1, 0⟩]⟩

/-- Concrete alive photon state inside the absorber of absLayer. -/
def dropAbsState : PhotonState := { baseState with currLayer := absLayer }

/-- Witness for the amended C1 at dropAbsState. -/
theorem drop_claim_amended_witness :
    (∀ a, dropAbsState.currLayer.getAbsorber dropAbsState.loc = some a →
      (drop dropAbsState).weight =
        dropAbsState.weight - dropAbsState.weight * (1 - a.mu_s / (a.mu_a + a.mu_s)) ∧
      (drop dropAbsState).tagged = true ∧
      (drop dropAbsState).local_Cplanar = dropAbsState.local_Cplanar ∧
      (∃ i, dropAbsState.currLayer.absorbers.get? i = some a ∧
        (∀ j, j < i → ∀ b, dropAbsState.currLayer.absorbers.get? j = some b →
          ¬ b.containsPoint dropAbsState.loc) ∧
        (drop dropAbsState).currLayer.absorbers =
          dropAbsState.currLayer.absorbers.set i
            { a with deposited :=
                a.deposited +
                  dropAbsState.weight * (1 - a.mu_s / (a.mu_a + a.mu_s)) })) ∧
    (dropAbsState.currLayer.getAbsorber dropAbsState.loc = none →
      (drop dropAbsState).weight =
        dropAbsState.weight -
          dropAbsState.weight *
            (1 - dropAbsState.currLayer.mu_s /
              (dropAbsState.currLayer.mu_a + dropAbsState.currLayer.mu_s)) ∧
      (drop dropAbsState).tagged = dropAbsState.tagged ∧
      (drop dropAbsState).local_Cplanar = dropAbsState.local_Cplanar ∧
      (drop dropAbsState).currLayer = dropAbsState.currLayer) ∧
    (∀ absorbed, (updateLocalWeightArray dropAbsState absorbed).local_Cplanar =
      dropAbsState.local_Cplanar.set
        (min (⌊|dropAbsState.z| / dropAbsState.radial_bin_size⌋.toNat)
          dropAbsState.num_radial_pos)
        (dropAbsState.local_Cplanar.getD
          (min (⌊|dropAbsState.z| / dropAbsState.radial_bin_size⌋.toNat)
            dropAbsState.num_radial_pos) 0 + absorbed)) :=
  drop_claim_amended dropAbsState rfl

/-- Concrete alive photon state at depth z = 0 in an absorber-free layer
with mu_a = mu_s = 1, so the drop interaction removes Δw = 1/2. -/
def dropNoAbsState : PhotonState := { baseState with z := 0 }

/-- C1 counterexample: at dropNoAbsState (no absorber contains the point)
drop() removes Δw = 1/2 from the weight but the planar fluence bin at index
⌊|z|/dr⌋ = 0 stays 0 instead of receiving Δw — the accumulation the claim
asserts does not happen (the call is commented out in the source). -/
theorem drop_claim_counterexample :
    dropNoAbsState.weight - (drop dropNoAbsState).weight = 1 / 2 ∧
    (⌊|dropNoAbsState.z| / dropNoAbsState.radial_bin_size⌋.toNat = 0) ∧
    (drop dropNoAbsState).local_Cplanar.getD 0 0 = 0 ∧
    ¬ ((drop dropNoAbsState).local_Cplanar.getD 0 0 =
        dropNoAbsState.local_Cplanar.getD 0 0 + 1 / 2) := by
  have habs : dropNoAbsState.currLayer.getAbsorber dropNoAbsState.loc = none := rfl
  have hdrop0 : (drop dropNoAbsState).local_Cplanar.getD 0 0 = 0 := by
    unfold drop
    rw [habs]
    simp only [dropNoAbsState, baseState]
    norm_num [MAX_BINS, List.replicate, List.getD]
  refine ⟨?_, ?_, hdrop0, ?_⟩
  · unfold drop
    rw [habs]
    norm_num [dropNoAbsState, baseState, layer0]
  · norm_num [dropNoAbsState, baseState]
  · rw [hdrop0]
    norm_num [dropNoAbsState, baseState, MAX_BINS, List.replicate, List.getD]

/-! ### C10 — no stale flags on a false return -/

/-- C10, amended: when all three hit flags are false on entry and the
projected new position lies strictly inside the medium box on every axis,
hitMediumBoundary() returns false and leaves the state — flags included —
unchanged.  (When the projected step lands exactly on a boundary plane the
function still returns false but leaves that axis's flag set, which is the
counterexample to the original claim.) -/
theorem hitMediumBoundary_claim_amended (m : Medium) (s : PhotonState)
    (hfx : s.hit_x_bound = false) (hfy : s.hit_y_bound = false)
    (hfz : s.hit_z_bound = false)
    (hx0 : 0 < projX s) (hx1 : projX s < m.x_bound)
    (hy0 : 0 < projY s) (hy1 : projY s < m.y_bound)
    (hz0 : 0 < projZ s) (hz1 : projZ s < m.z_bound) :
    hitMediumBoundary m s = (false, s) := by
  have hcx : ¬ crossX m s := by
    rw [crossX]
    push_neg
    exact ⟨by linarith, by linarith⟩
  have hcy : ¬ crossY m s := by
    rw [crossY]
    push_neg
    exact ⟨by linarith, by linarith⟩
  have hcz : ¬ crossZ m s := by
    rw [crossZ]
    push_neg
    exact ⟨by linarith, by linarith⟩
  unfold hitMediumBoundary
  simp [hcx, hcy, hcz, hfx, hfy, hfz]

/-- Witness for the amended C10 at the base state (projected position
(1,1,1), strictly inside the 2×2×2 box). -/
theorem hitMediumBoundary_claim_amended_witness :
    hitMediumBoundary boxMedium baseState = (false, baseState) :=
  hitMediumBoundary_claim_amended boxMedium baseState rfl rfl rfl
    (by norm_num [projX, baseState]) (by norm_num [projX, baseState, boxMedium])
    (by norm_num [projY, baseState]) (by norm_num [projY, baseState, boxMedium])
    (by norm_num [projZ, baseState]) (by norm_num [projZ, baseState, boxMedium])

/-- Concrete photon state at (1,1,1) moving along +x with step exactly 1, so
the projected position lands exactly on the x = 2 boundary plane. -/
def exactEdgeState : PhotonState := { baseState with dirx := 1, dirz := 0, step := 1 }

/-- C10 counterexample: at exactEdgeState (flags all false on entry, the
projected step landing exactly on the x boundary plane) hitMediumBoundary()
returns false yet leaves hit_x_bound set — a stale hit-axis flag. -/
theorem hitMediumBoundary_claim_counterexample :
    exactEdgeState.hit_x_bound = false ∧
    exactEdgeState.hit_y_bound = false ∧
    exactEdgeState.hit_z_bound = false ∧
    (hitMediumBoundary boxMedium exactEdgeState).1 = false ∧
    (hitMediumBoundary boxMedium exactEdgeState).2.hit_x_bound = true := by
  have hcx : crossX boxMedium exactEdgeState := by
    rw [crossX]
    norm_num [projX, exactEdgeState, baseState, boxMedium]
  have hcy : ¬ crossY boxMedium exactEdgeState := by
    rw [crossY]
    push_neg
    norm_num [projY, exactEdgeState, baseState, boxMedium]
  have hcz : ¬ crossZ boxMedium exactEdgeState := by
    rw [crossZ]
    push_neg
    norm_num [projZ, exactEdgeState, baseState, boxMedium]
  refine ⟨rfl, rfl, rfl, ?_, ?_⟩ <;>
  · unfold hitMediumBoundary
    simp [hcx, hcy, hcz]
    norm_num [distX, exactEdgeState, baseState, boxMedium]

/-! ### C2 — boundary axis selection -/

/-- One of the three medium box axes. -/
inductive Axis3 where
  | X : Axis3
  | Y : Axis3
  | Z : Axis3
deriving DecidableEq

/-- Position of an axis in the x-before-y-before-z order. -/
def axOrd : Axis3 → ℕ
  | .X => 0
  | .Y => 1
  | .Z => 2

/-- Projected coordinate on a given axis. -/
def projAx (s : PhotonState) : Axis3 → ℚ
  | .X => projX s
  | .Y => projY s
  | .Z => projZ s

/-- Box bound on a given axis. -/
def boundAx (m : Medium) : Axis3 → ℚ
  | .X => m.x_bound
  | .Y => m.y_bound
  | .Z => m.z_bound

/-- Direction cosine on a given axis. -/
def dirAx (s : PhotonState) : Axis3 → ℚ
  | .X => s.dirx
  | .Y => s.diry
  | .Z => s.dirz

/-- Crossing test on a given axis. -/
def crossAx (m : Medium) (s : PhotonState) : Axis3 → Prop
  | .X => crossX m s
  | .Y => crossY m s
  | .Z => crossZ m s

/-- Distance to the boundary on a given axis. -/
def distAx (m : Medium) (s : PhotonState) : Axis3 → ℚ
  | .X => distX m s
  | .Y => distY m s
  | .Z => distZ m s

/-- Strictly-outside test: the projected new position strictly leaves the
box on this axis. -/
def strictOutAx (m : Medium) (s : PhotonState) (A : Axis3) : Prop :=
  projAx s A > boundAx m A ∨ projAx s A < 0

/-- Hit flag of a given axis. -/
def flagAx (s : PhotonState) : Axis3 → Bool
  | .X => s.hit_x_bound
  | .Y => s.hit_y_bound
  | .Z => s.hit_z_bound

/-- Strictly outside implies the crossing test of the source fires. -/
lemma crossAx_of_strict (m : Medium) (s : PhotonState) :
    ∀ A, strictOutAx m s A → crossAx m s A
  | .X, h => h.imp le_of_lt le_of_lt
  | .Y, h => h.imp le_of_lt le_of_lt
  | .Z, h => h.imp le_of_lt le_of_lt

/-- Generic per-axis fact: if the projected position is strictly outside
and the current position is inside the box on this axis, then the computed
distance-to-boundary is strictly below the step. -/
lemma distGen_lt_step (bound pos dir step : ℚ) (hp0 : 0 ≤ pos) (hp1 : pos ≤ bound)
    (hstep : 0 ≤ step) (hout : step * dir + pos > bound ∨ step * dir + pos < 0) :
    (if dir > 0 then (bound - pos) / dir else |pos / dir|) < step := by
  rcases hout with h | h
  · have hd : 0 < dir := by
      by_contra hd
      push_neg at hd
      nlinarith
    rw [if_pos hd, div_lt_iff₀ hd]
    nlinarith
  · have hd : dir < 0 := by
      rcases lt_trichotomy dir 0 with h1 | h1 | h1
      · exact h1
      · exfalso
        rw [h1] at h
        simp at h
        linarith
      · exfalso
        nlinarith
    rw [if_neg (by linarith), abs_div, abs_of_nonneg hp0, abs_of_neg hd,
      div_lt_iff₀ (by linarith : (0 : ℚ) < -dir)]
    nlinarith

/-- Per-axis instantiation of distGen_lt_step. -/
lemma distAx_lt_step (m : Medium) (s : PhotonState)
    (hx0 : 0 ≤ s.x) (hx1 : s.x ≤ m.x_bound) (hy0 : 0 ≤ s.y) (hy1 : s.y ≤ m.y_bound)
    (hz0 : 0 ≤ s.z) (hz1 : s.z ≤ m.z_bound) (hstep : 0 ≤ s.step) :
    ∀ A, strictOutAx m s A → distAx m s A < s.step
  | .X, h => distGen_lt_step m.x_bound s.x s.dirx s.step hx0 hx1 hstep h
  | .Y, h => distGen_lt_step m.y_bound s.y s.diry s.step hy0 hy1 hstep h
  | .Z, h => distGen_lt_step m.z_bound s.z s.dirz s.step hz0 hz1 hstep h

/-- Reduction of hitMediumBoundary when x and y are crossed and x is
strictly nearer. -/
lemma hmb_xy_lt (m : Medium) (s : PhotonState)
    (hcx : crossX m s) (hcy : crossY m s)
    (hlt : distX m s < distY m s) (hgt : s.step > distX m s) :
    hitMediumBoundary m s =
      (true,
        { s with
            hit_x_bound := true
            hit_y_bound := false
            hit_z_bound := false
            step_remainder := (s.step - distX m s) * s.currLayer.totalAttenuationAt s.loc
            step := distX m s }) := by
  unfold hitMediumBoundary
  simp [hcx, hcy, hlt, hgt]

/-- Reduction of hitMediumBoundary when x and y are crossed and y is at
least as near (ties go to y). -/
lemma hmb_xy_ge (m : Medium) (s : PhotonState)
    (hcx : crossX m s) (hcy : crossY m s)
    (hge : ¬ distX m s < distY m s) (hgt : s.step > distY m s) :
    hitMediumBoundary m s =
      (true,
        { s with
            hit_x_bound := false
            hit_y_bound := true
            hit_z_bound := false
            step_remainder := (s.step - distY m s) * s.currLayer.totalAttenuationAt s.loc
            step := distY m s }) := by
  unfold hitMediumBoundary
  simp [hcx, hcy, hge, hgt]

/-- Reduction of hitMediumBoundary when x and z are crossed (y not) and x is
strictly nearer. -/
lemma hmb_xz_lt (m : Medium) (s : PhotonState)
    (hcx : crossX m s) (hcy : ¬ crossY m s) (hcz : crossZ m s)
    (hfy : s.hit_y_bound = false)
    (hlt : distX m s < distZ m s) (hgt : s.step > distX m s) :
    hitMediumBoundary m s =
      (true,
        { s with
            hit_x_bound := true
            hit_y_bound := false
            hit_z_bound := false
            step_remainder := (s.step - distX m s) * s.currLayer.totalAttenuationAt s.loc
            step := distX m s }) := by
  unfold hitMediumBoundary
  simp [hcx, hcy, hcz, hfy, hlt, hgt]

/-- Reduction of hitMediumBoundary when x and z are crossed (y not) and z is
at least as near (ties go to z). -/
lemma hmb_xz_ge (m : Medium) (s : PhotonState)
    (hcx : crossX m s) (hcy : ¬ crossY m s) (hcz : crossZ m s)
    (hfy : s.hit_y_bound = false)
    (hge : ¬ distX m s < distZ m s) (hgt : s.step > distZ m s) :
    hitMediumBoundary m s =
      (true,
        { s with
            hit_x_bound := false
            hit_y_bound := false
            hit_z_bound := true
            step_remainder := (s.step - distZ m s) * s.currLayer.totalAttenuationAt s.loc
            step := distZ m s }) := by
  unfold hitMediumBoundary
  simp [hcx, hcy, hcz, hfy, hge, hgt]

/-- Reduction of hitMediumBoundary when y and z are crossed (x not) and y is
strictly nearer. -/
lemma hmb_yz_lt (m : Medium) (s : PhotonState)
    (hcx : ¬ crossX m s) (hcy : crossY m s) (hcz : crossZ m s)
    (hfx : s.hit_x_bound = false)
    (hlt : distY m s < distZ m s) (hgt : s.step > distY m s) :
    hitMediumBoundary m s =
      (true,
        { s with
            hit_x_bound := false
            hit_y_bound := true
            hit_z_bound := false
            step_remainder := (s.step - distY m s) * s.currLayer.totalAttenuationAt s.loc
            step := distY m s }) := by
  unfold hitMediumBoundary
  simp [hcx, hcy, hcz, hfx, hlt, hgt]

/-- Reduction of hitMediumBoundary when y and z are crossed (x not) and z is
at least as near (ties go to z). -/
lemma hmb_yz_ge (m : Medium) (s : PhotonState)
    (hcx : ¬ crossX m s) (hcy : crossY m s) (hcz : crossZ m s)
    (hfx : s.hit_x_bound = false)
    (hge : ¬ distY m s < distZ m s) (hgt : s.step > distZ m s) :
    hitMediumBoundary m s =
      (true,
        { s with
            hit_x_bound := false
            hit_y_bound := false
            hit_z_bound := true
            step_remainder := (s.step - distZ m s) * s.currLayer.totalAttenuationAt s.loc
            step := distZ m s }) := by
  unfold hitMediumBoundary
  simp [hcx, hcy, hcz, hfx, hge, hgt]

/-- Reduction of hitMediumBoundary when only x is crossed. -/
lemma hmb_x_only (m : Medium) (s : PhotonState)
    (hcx : crossX m s) (hcy : ¬ crossY m s) (hcz : ¬ crossZ m s)
    (hfy : s.hit_y_bound = false) (hfz : s.hit_z_bound = false)
    (hgt : s.step > distX m s) :
    hitMediumBoundary m s =
      (true,
        { s with
            hit_x_bound := true
            hit_y_bound := false
            hit_z_bound := false
            step_remainder := (s.step - distX m s) * s.currLayer.totalAttenuationAt s.loc
            step := distX m s }) := by
  unfold hitMediumBoundary
  simp [hcx, hcy, hcz, hfy, hfz, hgt]

/-- Reduction of hitMediumBoundary when only y is crossed. -/
lemma hmb_y_only (m : Medium) (s : PhotonState)
    (hcx : ¬ crossX m s) (hcy : crossY m s) (hcz : ¬ crossZ m s)
    (hfx : s.hit_x_bound = false) (hfz : s.hit_z_bound = false)
    (hgt : s.step > distY m s) :
    hitMediumBoundary m s =
      (true,
        { s with
            hit_x_bound := false
            hit_y_bound := true
            hit_z_bound := false
            step_remainder := (s.step - distY m s) * s.currLayer.totalAttenuationAt s.loc
            step := distY m s }) := by
  unfold hitMediumBoundary
  simp [hcx, hcy, hcz, hfx, hfz, hgt]

/-- Reduction of hitMediumBoundary when only z is crossed. -/
lemma hmb_z_only (m : Medium) (s : PhotonState)
    (hcx : ¬ crossX m s) (hcy : ¬ crossY m s) (hcz : crossZ m s)
    (hfx : s.hit_x_bound = false) (hfy : s.hit_y_bound = false)
    (hgt : s.step > distZ m s) :
    hitMediumBoundary m s =
      (true,
        { s with
            hit_x_bound := false
            hit_y_bound := false
            hit_z_bound := true
            step_remainder := (s.step - distZ m s) * s.currLayer.totalAttenuationAt s.loc
            step := distZ m s }) := by
  unfold hitMediumBoundary
  simp [hcx, hcy, hcz, hfx, hfy, hgt]

/-- C2, amended: whenever the projected new position strictly leaves the
medium box on at least one axis, the crossing tests fire on at most two
axes, the photon is moving (nonzero direction cosine) on every crossed
axis, the position is inside the box and the step is nonnegative,
hitMediumBoundary() returns true, sets step to the smallest crossed-axis
distance-to-boundary, sets step_remainder to (s_original − s)·µt, and sets
exactly the flag of the selected axis — where equal distances prefer the
later axis (y over x, z over x, z over y), not x over y over z as
originally claimed; when all three axes are crossed the source cascade
compares x and y only, so that case is excluded here. -/
theorem hitMediumBoundary_claim2_amended (m : Medium) (s : PhotonState)
    (hfx : s.hit_x_bound = false) (hfy : s.hit_y_bound = false)
    (hfz : s.hit_z_bound = false)
    (hx0 : 0 ≤ s.x) (hx1 : s.x ≤ m.x_bound) (hy0 : 0 ≤ s.y) (hy1 : s.y ≤ m.y_bound)
    (hz0 : 0 ≤ s.z) (hz1 : s.z ≤ m.z_bound) (hstep : 0 ≤ s.step)
    (hstrict : ∃ A, strictOutAx m s A)
    (hnot3 : ¬ (crossX m s ∧ crossY m s ∧ crossZ m s))
    (hdir : ∀ A, crossAx m s A → dirAx s A ≠ 0) :
    (hitMediumBoundary m s).1 = true ∧
    ∃ A, crossAx m s A ∧
      (∀ B, crossAx m s B → distAx m s A ≤ distAx m s B) ∧
      (∀ B, crossAx m s B → distAx m s B = distAx m s A → axOrd B ≤ axOrd A) ∧
      (hitMediumBoundary m s).2.step = distAx m s A ∧
      (hitMediumBoundary m s).2.step_remainder =
        (s.step - distAx m s A) * s.currLayer.totalAttenuationAt s.loc ∧
      (∀ B, flagAx (hitMediumBoundary m s).2 B = decide (B = A)) := by
  obtain ⟨S, hS⟩ := hstrict
  have hSc := crossAx_of_strict m s S hS
  have hSlt := distAx_lt_step m s hx0 hx1 hy0 hy1 hz0 hz1 hstep S hS
  by_cases hcx : crossX m s <;> by_cases hcy : crossY m s <;> by_cases hcz : crossZ m s
  · exact absurd ⟨hcx, hcy, hcz⟩ hnot3
  · -- x and y crossed
    rcases lt_or_le (distX m s) (distY m s) with htie | htie
    · have hgt : s.step > distX m s := by
        cases S
        · exact hSlt
        · exact lt_trans htie hSlt
        · exact absurd hSc hcz
      have hval := hmb_xy_lt m s hcx hcy htie hgt
      refine ⟨by rw [hval], .X, hcx, ?_, ?_, by rw [hval]; rfl, by rw [hval]; rfl, ?_⟩
      · intro B hB
        cases B
        · exact le_refl _
        · exact le_of_lt htie
        · exact absurd hB hcz
      · intro B hB heq
        cases B
        · exact le_refl _
        · exact absurd heq (ne_of_gt htie)
        · exact absurd hB hcz
      · intro B
        cases B <;> rw [hval] <;> rfl
    · have hgt : s.step > distY m s := by
        cases S
        · exact lt_of_le_of_lt htie hSlt
        · exact hSlt
        · exact absurd hSc hcz
      have hval := hmb_xy_ge m s hcx hcy (not_lt.mpr htie) hgt
      refine ⟨by rw [hval], .Y, hcy, ?_, ?_, by rw [hval]; rfl, by rw [hval]; rfl, ?_⟩
      · intro B hB
        cases B
        · exact htie
        · exact le_refl _
        · exact absurd hB hcz
      · intro B hB heq
        cases B
        · exact Nat.zero_le _
        · exact le_refl _
        · exact absurd hB hcz
      · intro B
        cases B <;> rw [hval] <;> rfl
  · -- x and z crossed
    rcases lt_or_le (distX m s) (distZ m s) with htie | htie
    · have hgt : s.step > distX m s := by
        cases S
        · exact hSlt
        · exact absurd hSc hcy
        · exact lt_trans htie hSlt
      have hval := hmb_xz_lt m s hcx hcy hcz hfy htie hgt
      refine ⟨by rw [hval], .X, hcx, ?_, ?_, by rw [hval]; rfl, by rw [hval]; rfl, ?_⟩
      · intro B hB
        cases B
        · exact le_refl _
        · exact absurd hB hcy
        · exact le_of_lt htie
      · intro B hB heq
        cases B
        · exact le_refl _
        · exact absurd hB hcy
        · exact absurd heq (ne_of_gt htie)
      · intro B
        cases B <;> rw [hval] <;> rfl
    · have hgt : s.step > distZ m s := by
        cases S
        · exact lt_of_le_of_lt htie hSlt
        · exact absurd hSc hcy
        · exact hSlt
      have hval := hmb_xz_ge m s hcx hcy hcz hfy (not_lt.mpr htie) hgt
      refine ⟨by rw [hval], .Z, hcz, ?_, ?_, by rw [hval]; rfl, by rw [hval]; rfl, ?_⟩
      · intro B hB
        cases B
        · exact htie
        · exact absurd hB hcy
        · exact le_refl _
      · intro B hB heq
        cases B
        · exact Nat.zero_le _
        · exact absurd hB hcy
        · exact le_refl _
      · intro B
        cases B <;> rw [hval] <;> rfl
  · -- only x crossed
    have hgt : s.step > distX m s := by
      cases S
      · exact hSlt
      · exact absurd hSc hcy
      · exact absurd hSc hcz
    have hval := hmb_x_only m s hcx hcy hcz hfy hfz hgt
    refine ⟨by rw [hval], .X, hcx, ?_, ?_, by rw [hval]; rfl, by rw [hval]; rfl, ?_⟩
    · intro B hB
      cases B
      · exact le_refl _
      · exact absurd hB hcy
      · exact absurd hB hcz
    · intro B hB heq
      cases B
      · exact le_refl _
      · exact absurd hB hcy
      · exact absurd hB hcz
    · intro B
      cases B <;> rw [hval] <;> rfl
  · -- y and z crossed
    rcases lt_or_le (distY m s) (distZ m s) with htie | htie
    · have hgt : s.step > distY m s := by
        cases S
        · exact absurd hSc hcx
        · exact hSlt
        · exact lt_trans htie hSlt
      have hval := hmb_yz_lt m s hcx hcy hcz hfx htie hgt
      refine ⟨by rw [hval], .Y, hcy, ?_, ?_, by rw [hval]; rfl, by rw [hval]; rfl, ?_⟩
      · intro B hB
        cases B
        · exact absurd hB hcx
        · exact le_refl _
        · exact le_of_lt htie
      · intro B hB heq
        cases B
        · exact absurd hB hcx
        · exact le_refl _
        · exact absurd heq (ne_of_gt htie)
      · intro B
        cases B <;> rw [hval] <;> rfl
    · have hgt : s.step > distZ m s := by
        cases S
        · exact absurd hSc hcx
        · exact lt_of_le_of_lt htie hSlt
        · exact hSlt
      have hval := hmb_yz_ge m s hcx hcy hcz hfx (not_lt.mpr htie) hgt
      refine ⟨by rw [hval], .Z, hcz, ?_, ?_, by rw [hval]; rfl, by rw [hval]; rfl, ?_⟩
      · intro B hB
        cases B
        · exact absurd hB hcx
        · exact htie
        · exact le_refl _
      · intro B hB heq
        cases B
        · exact absurd hB hcx
        · exact Nat.le_succ _
        · exact le_refl _
      · intro B
        cases B <;> rw [hval] <;> rfl
  · -- only y crossed
    have hgt : s.step > distY m s := by
      cases S
      · exact absurd hSc hcx
      · exact hSlt
      · exact absurd hSc hcz
    have hval := hmb_y_only m s hcx hcy hcz hfx hfz hgt
    refine ⟨by rw [hval], .Y, hcy, ?_, ?_, by rw [hval]; rfl, by rw [hval]; rfl, ?_⟩
    · intro B hB
      cases B
      · exact absurd hB hcx
      · exact le_refl _
      · exact absurd hB hcz
    · intro B hB heq
      cases B
      · exact absurd hB hcx
      · exact le_refl _
      · exact absurd hB hcz
    · intro B
      cases B <;> rw [hval] <;> rfl
  · -- only z crossed
    have hgt : s.step > distZ m s := by
      cases S
      · exact absurd hSc hcx
      · exact absurd hSc hcy
      · exact hSlt
    have hval := hmb_z_only m s hcx hcy hcz hfx hfy hgt
    refine ⟨by rw [hval], .Z, hcz, ?_, ?_, by rw [hval]; rfl, by rw [hval]; rfl, ?_⟩
    · intro B hB
      cases B
      · exact absurd hB hcx
      · exact absurd hB hcy
      · exact le_refl _
    · intro B hB heq
      cases B
      · exact absurd hB hcx
      · exact absurd hB hcy
      · exact le_refl _
    · intro B
      cases B <;> rw [hval] <;> rfl
  · -- nothing crossed: contradicts the strictly-outside axis
    cases S
    · exact absurd hSc hcx
    · exact absurd hSc hcy
    · exact absurd hSc hcz


/-- Concrete photon state at (1,1,1) moving diagonally in x and y with step
5: both the x and the y crossing tests fire at the same distance 1 to their
boundaries. -/
def tieState : PhotonState := { baseState with dirx := 1, diry := 1, dirz := 0, step := 5 }

/-- C2 counterexample: at tieState the x and y boundaries are crossed at
equal distances, and the claim requires the tie to prefer x over y; the
source comparison (distance_to_boundary_X < distance_to_boundary_Y) sends
ties to the else arm, so hitMediumBoundary() sets hit_y_bound, not
hit_x_bound. -/
theorem hitMediumBoundary_claim2_counterexample :
    tieState.hit_x_bound = false ∧ tieState.hit_y_bound = false ∧
    tieState.hit_z_bound = false ∧
    crossX boxMedium tieState ∧ crossY boxMedium tieState ∧
    distX boxMedium tieState = distY boxMedium tieState ∧
    (hitMediumBoundary boxMedium tieState).1 = true ∧
    (hitMediumBoundary boxMedium tieState).2.hit_x_bound = false ∧
    (hitMediumBoundary boxMedium tieState).2.hit_y_bound = true := by
  have hcx : crossX boxMedium tieState := by
    rw [crossX]
    left
    norm_num [projX, tieState, baseState, boxMedium]
  have hcy : crossY boxMedium tieState := by
    rw [crossY]
    left
    norm_num [projY, tieState, baseState, boxMedium]
  have hdX : distX boxMedium tieState = 1 := by
    norm_num [distX, tieState, baseState, boxMedium]
  have hdY : distY boxMedium tieState = 1 := by
    norm_num [distY, tieState, baseState, boxMedium]
  have hval := hmb_xy_ge boxMedium tieState hcx hcy
    (by rw [hdX, hdY]; exact lt_irrefl 1) (by rw [hdY]; norm_num [tieState, baseState])
  refine ⟨rfl, rfl, rfl, hcx, hcy, by rw [hdX, hdY], by rw [hval], by rw [hval],
    by rw [hval]⟩

/-- Concrete photon state at (1,1,1) moving along +x with step 5, strictly
leaving the box through the x face only. -/
def xOnlyState : PhotonState := { baseState with dirx := 1, dirz := 0, step := 5 }

/-- Witness for the amended C2 at xOnlyState. -/
theorem hitMediumBoundary_claim2_amended_witness :
    (hitMediumBoundary boxMedium xOnlyState).1 = true ∧
    ∃ A, crossAx boxMedium xOnlyState A ∧
      (∀ B, crossAx boxMedium xOnlyState B →
        distAx boxMedium xOnlyState A ≤ distAx boxMedium xOnlyState B) ∧
      (∀ B, crossAx boxMedium xOnlyState B →
        distAx boxMedium xOnlyState B = distAx boxMedium xOnlyState A →
        axOrd B ≤ axOrd A) ∧
      (hitMediumBoundary boxMedium xOnlyState).2.step = distAx boxMedium xOnlyState A ∧
      (hitMediumBoundary boxMedium xOnlyState).2.step_remainder =
        (xOnlyState.step - distAx boxMedium xOnlyState A) *
          xOnlyState.currLayer.totalAttenuationAt xOnlyState.loc ∧
      (∀ B, flagAx (hitMediumBoundary boxMedium xOnlyState).2 B = decide (B = A)) := by
  have hncy : ¬ crossY boxMedium xOnlyState := by
    rw [crossY]
    push_neg
    constructor <;> norm_num [projY, xOnlyState, baseState, boxMedium]
  have hncz : ¬ crossZ boxMedium xOnlyState := by
    rw [crossZ]
    push_neg
    constructor <;> norm_num [projZ, xOnlyState, baseState, boxMedium]
  exact hitMediumBoundary_claim2_amended boxMedium xOnlyState rfl rfl rfl
    (by norm_num [xOnlyState, baseState]) (by norm_num [xOnlyState, baseState, boxMedium])
    (by norm_num [xOnlyState, baseState]) (by norm_num [xOnlyState, baseState, boxMedium])
    (by norm_num [xOnlyState, baseState]) (by norm_num [xOnlyState, baseState, boxMedium])
    (by norm_num [xOnlyState, baseState])
    ⟨.X, Or.inl (by norm_num [strictOutAx, projAx, projX, boundAx, xOnlyState, baseState, boxMedium])⟩
    (fun h => hncy h.2.1)
    (by
      intro A hA
      cases A
      · norm_num [dirAx, xOnlyState, baseState]
      · exact absurd hA hncy
      · exact absurd hA hncz)


/-- Fresnel average-polarisation reflectance formula computed in the else
branch of Photon::getMediumReflectance (photon.cpp lines 1091-1092). -/
noncomputable def fresnelFormula (ti tt : ℝ) : ℝ :=
  1 / 2 * (Real.sin (ti - tt) ^ 2 / Real.sin (ti + tt) ^ 2
    + Real.tan (ti - tt) ^ 2 / Real.tan (ti + tt) ^ 2)

/-- Selected axis for the hit-x flag configuration. -/
lemma axisDirSel_x (dx dy dz : ℝ) : axisDirSel true false dx dy dz = dx := rfl

/-- Selected axis for the hit-y flag configuration. -/
lemma axisDirSel_y (dx dy dz : ℝ) : axisDirSel false true dx dy dz = dy := rfl

/-- Selected axis for the hit-z flag configuration. -/
lemma axisDirSel_z (dx dy dz : ℝ) : axisDirSel false false dx dy dz = dz := rfl

/-- Reduction of getMediumReflectance to an if on the critical-angle
comparison, with n2 = 1 substituted. -/
lemma gmr_reduce (n1 dx dy dz : ℝ) (hx hy : Bool) :
    getMediumReflectance n1 hx hy dx dy dz =
      if Real.arcsin (1 / n1) < Real.arccos |axisDirSel hx hy dx dy dz| then (1 : ℝ)
      else fresnelFormula (Real.arccos |axisDirSel hx hy dx dy dz|)
        (Real.arcsin (n1 * Real.sin (Real.arccos |axisDirSel hx hy dx dy dz|))) := by
  unfold getMediumReflectance fresnelFormula
  dsimp only
  rw [div_one]

/-- C5: at a medium boundary with exactly one hit-axis flag set, in a layer
of refractive index n1 ≥ 1 facing outside air n2 = 1, getMediumReflectance()
returns 1 when the incidence angle acos(|axis_dir|) (axis_dir being the
direction cosine of the hit axis) exceeds the critical angle asin(n2/n1),
and otherwise returns the Fresnel formula with transmission angle
asin(n1/n2·sin(incidence)). -/
theorem getMediumReflectance_claim (n1 dx dy dz : ℝ) (hn : 1 ≤ n1) :
    ((Real.arcsin (1 / n1) < Real.arccos |dx| →
        getMediumReflectance n1 true false dx dy dz = 1) ∧
      (Real.arccos |dx| ≤ Real.arcsin (1 / n1) →
        getMediumReflectance n1 true false dx dy dz =
          fresnelFormula (Real.arccos |dx|)
            (Real.arcsin (n1 * Real.sin (Real.arccos |dx|))))) ∧
    ((Real.arcsin (1 / n1) < Real.arccos |dy| →
        getMediumReflectance n1 false true dx dy dz = 1) ∧
      (Real.arccos |dy| ≤ Real.arcsin (1 / n1) →
        getMediumReflectance n1 false true dx dy dz =
          fresnelFormula (Real.arccos |dy|)
            (Real.arcsin (n1 * Real.sin (Real.arccos |dy|))))) ∧
    ((Real.arcsin (1 / n1) < Real.arccos |dz| →
        getMediumReflectance n1 false false dx dy dz = 1) ∧
      (Real.arccos |dz| ≤ Real.arcsin (1 / n1) →
        getMediumReflectance n1 false false dx dy dz =
          fresnelFormula (Real.arccos |dz|)
            (Real.arcsin (n1 * Real.sin (Real.arccos |dz|))))) := by
  have ex := gmr_reduce n1 dx dy dz true false
  have ey := gmr_reduce n1 dx dy dz false true
  have ez := gmr_reduce n1 dx dy dz false false
  rw [axisDirSel_x] at ex
  rw [axisDirSel_y] at ey
  rw [axisDirSel_z] at ez
  refine ⟨⟨fun hxa => ?_, fun hxb => ?_⟩, ⟨fun hya => ?_, fun hyb => ?_⟩,
    ⟨fun hza => ?_, fun hzb => ?_⟩⟩
  · rw [ex, if_pos hxa]
  · rw [ex, if_neg (not_lt.mpr hxb)]
  · rw [ey, if_pos hya]
  · rw [ey, if_neg (not_lt.mpr hyb)]
  · rw [ez, if_pos hza]
  · rw [ez, if_neg (not_lt.mpr hzb)]

/-- Witness for C5 at n1 = 1.33, direction cosines (1/2, 0, 0). -/
theorem getMediumReflectance_claim_witness :
    (((Real.arcsin (1 / (133 / 100)) < Real.arccos |(1 / 2 : ℝ)| →
        getMediumReflectance (133 / 100) true false (1 / 2) 0 0 = 1) ∧
      (Real.arccos |(1 / 2 : ℝ)| ≤ Real.arcsin (1 / (133 / 100)) →
        getMediumReflectance (133 / 100) true false (1 / 2) 0 0 =
          fresnelFormula (Real.arccos |(1 / 2 : ℝ)|)
            (Real.arcsin ((133 / 100) * Real.sin (Real.arccos |(1 / 2 : ℝ)|))))) ∧
    ((Real.arcsin (1 / (133 / 100)) < Real.arccos |(0 : ℝ)| →
        getMediumReflectance (133 / 100) false true (1 / 2) 0 0 = 1) ∧
      (Real.arccos |(0 : ℝ)| ≤ Real.arcsin (1 / (133 / 100)) →
        getMediumReflectance (133 / 100) false true (1 / 2) 0 0 =
          fresnelFormula (Real.arccos |(0 : ℝ)|)
            (Real.arcsin ((133 / 100) * Real.sin (Real.arccos |(0 : ℝ)|))))) ∧
    ((Real.arcsin (1 / (133 / 100)) < Real.arccos |(0 : ℝ)| →
        getMediumReflectance (133 / 100) false false (1 / 2) 0 0 = 1) ∧
      (Real.arccos |(0 : ℝ)| ≤ Real.arcsin (1 / (133 / 100)) →
        getMediumReflectance (133 / 100) false false (1 / 2) 0 0 =
          fresnelFormula (Real.arccos |(0 : ℝ)|)
            (Real.arcsin ((133 / 100) * Real.sin (Real.arccos |(0 : ℝ)|)))))) :=
  getMediumReflectance_claim (133 / 100) (1 / 2) 0 0 (by norm_num)

/-! ### C6 — monotone weight -/

/-- Weight-mutating walker operations named by the claim: drop, specular
reflectance, roulette, and transmit-or-reflect at the medium boundary. -/
inductive WeightOp where
  | dropOp : WeightOp
  | specOp : ℚ → ℚ → WeightOp
  | rouletteOp : ℚ → WeightOp
  | torMediumOp : ℚ → ℚ → ℚ → WeightOp

/-- Apply one weight-mutating walker operation to the photon state. -/
def applyWeightOp (s : PhotonState) : WeightOp → PhotonState
  | .dropOp => drop s
  | .specOp n1 n2 => { s with weight := specularReflectance n1 n2 s.weight }
  | .rouletteOp u => performRoulette s u
  | .torMediumOp R u u2 => transmitOrReflectMedium s R u u2

/-- Nonnegative optical coefficients of a layer and all its absorbers. -/
def nonnegCoeffs (L : Layer) : Prop :=
  0 ≤ L.mu_a ∧ 0 ≤ L.mu_s ∧ ∀ a ∈ L.absorbers, 0 ≤ a.mu_a ∧ 0 ≤ a.mu_s

/-- Physical refractive indices (n ≥ 1, spec data model) for the specular
operation; no side condition for the others. -/
def opWF : WeightOp → Prop
  | .specOp n1 n2 => 1 ≤ n1 ∧ 1 ≤ n2
  | _ => True

/-- The albedo mu_s/(mu_a+mu_s) lies in [0,1] for nonnegative coefficients
(0 when both coefficients vanish, by the rational convention x/0 = 0). -/
lemma albedo_mem (mu_a mu_s : ℚ) (ha : 0 ≤ mu_a) (hs : 0 ≤ mu_s) :
    0 ≤ mu_s / (mu_a + mu_s) ∧ mu_s / (mu_a + mu_s) ≤ 1 := by
  rcases eq_or_lt_of_le (by positivity : (0 : ℚ) ≤ mu_a + mu_s) with h | h
  · rw [← h, div_zero]
    norm_num
  · exact ⟨by positivity, by rw [div_le_one h]; linarith⟩

/-- drop never increases the weight and keeps it nonnegative. -/
lemma drop_weight (s : PhotonState) (hL : nonnegCoeffs s.currLayer)
    (hw : 0 ≤ s.weight) : (drop s).weight ≤ s.weight ∧ 0 ≤ (drop s).weight := by
  unfold drop
  by_cases hst : s.status = false
  · rw [if_pos hst]
    exact ⟨le_refl _, hw⟩
  · rw [if_neg hst]
    cases hfind : s.currLayer.getAbsorber s.loc with
    | some a =>
        have hmem : a ∈ s.currLayer.absorbers := by
          rw [Layer.getAbsorber] at hfind
          exact List.mem_of_find?_eq_some hfind
        obtain ⟨ha, hs2⟩ := hL.2.2 a hmem
        obtain ⟨h0, h1⟩ := albedo_mem a.mu_a a.mu_s ha hs2
        dsimp only
        constructor
        · nlinarith
        · nlinarith
    | none =>
        obtain ⟨h0, h1⟩ := albedo_mem s.currLayer.mu_a s.currLayer.mu_s hL.1 hL.2.1
        dsimp only
        constructor
        · nlinarith
        · nlinarith

/-- Case analysis of performRoulette on the weight: either the weight is
unchanged, or (survival) the weight was below THRESHOLD and is divided by
CHANCE, an exact factor 10. -/
lemma roulette_weight_cases (t : PhotonState) (u : ℚ) (hw : 0 ≤ t.weight) :
    ((performRoulette t u).weight = t.weight ∧ 0 ≤ (performRoulette t u).weight) ∨
    (t.weight < THRESHOLD ∧ (performRoulette t u).weight = t.weight / CHANCE ∧
      t.weight / CHANCE = 10 * t.weight ∧ 0 ≤ (performRoulette t u).weight) := by
  unfold performRoulette
  split_ifs with h1 h2 h3
  · exact Or.inl ⟨rfl, hw⟩
  · right
    refine ⟨h2, rfl, ?_, ?_⟩
    · rw [CHANCE]
      field_simp
      ring
    · show 0 ≤ t.weight / CHANCE
      rw [CHANCE]
      positivity
  · exact Or.inl ⟨rfl, hw⟩
  · exact Or.inl ⟨rfl, hw⟩

/-- C6: assuming nonnegative optical coefficients (and physical refractive
indices for the specular decrement), no weight-mutating operation of the
walker — drop, specularReflectance, performRoulette, or
transmitOrReflect("medium") — ever increases the photon weight, except at a
roulette survival, where the weight at the roulette (some wpre below
THRESHOLD, itself no larger than the incoming weight) is divided by CHANCE,
an increase by exactly the factor 1/CHANCE = 10; the weight also stays
nonnegative, so the bound chains across a whole photon cycle. -/
theorem weight_monotone_claim (s : PhotonState) (op : WeightOp)
    (hL : nonnegCoeffs s.currLayer) (hw : 0 ≤ s.weight) (hop : opWF op) :
    ((applyWeightOp s op).weight ≤ s.weight ∨
      ∃ wpre, 0 ≤ wpre ∧ wpre ≤ s.weight ∧ wpre < THRESHOLD ∧
        (applyWeightOp s op).weight = wpre / CHANCE ∧ wpre / CHANCE = 10 * wpre) ∧
    0 ≤ (applyWeightOp s op).weight := by
  cases op with
  | dropOp =>
      obtain ⟨h1, h2⟩ := drop_weight s hL hw
      exact ⟨Or.inl h1, h2⟩
  | specOp n1 n2 =>
      obtain ⟨hn1, hn2⟩ := hop
      have hsum : (0 : ℚ) < n1 + n2 := by linarith
      have hd : (0 : ℚ) < (n1 + n2) ^ 2 := by positivity
      have hq0 : 0 ≤ (n1 - n2) ^ 2 / (n1 + n2) ^ 2 := by positivity
      have hq1 : (n1 - n2) ^ 2 / (n1 + n2) ^ 2 ≤ 1 := by
        rw [div_le_one hd]
        nlinarith
      constructor
      · left
        show specularReflectance n1 n2 s.weight ≤ s.weight
        unfold specularReflectance
        nlinarith
      · show 0 ≤ specularReflectance n1 n2 s.weight
        unfold specularReflectance
        nlinarith
  | rouletteOp u =>
      rcases roulette_weight_cases s u hw with ⟨heq, hpos⟩ | ⟨hlt, heq, h10, hpos⟩
      · exact ⟨Or.inl (le_of_eq heq), hpos⟩
      · exact ⟨Or.inr ⟨s.weight, hw, le_refl _, hlt, heq, h10⟩, hpos⟩
  | torMediumOp R u u2 =>
      simp only [applyWeightOp]
      unfold transmitOrReflectMedium
      by_cases hRu : R > u
      · rw [if_pos hRu]
        set s1 := if s.hit_x_bound then internallyReflectX s
          else if s.hit_y_bound then internallyReflectY s
          else if s.hit_z_bound then internallyReflectZ s
          else s with hs1
        have h1w : s1.weight = s.weight := by
          rw [hs1]
          unfold internallyReflectX internallyReflectY internallyReflectZ
          split_ifs <;> rfl
        have h1L : s1.currLayer = s.currLayer := by
          rw [hs1]
          unfold internallyReflectX internallyReflectY internallyReflectZ
          split_ifs <;> rfl
        have hd := drop_weight s1 (h1L ▸ hL) (h1w ▸ hw)
        rcases roulette_weight_cases (drop s1) u2 hd.2 with ⟨heq, hpos⟩ | ⟨hlt, heq, h10, hpos⟩
        · refine ⟨Or.inl ?_, hpos⟩
          rw [heq]
          calc (drop s1).weight ≤ s1.weight := hd.1
            _ = s.weight := h1w
        · refine ⟨Or.inr ⟨(drop s1).weight, hd.2, ?_, hlt, heq, h10⟩, hpos⟩
          calc (drop s1).weight ≤ s1.weight := hd.1
            _ = s.weight := h1w
      · rw [if_neg hRu]
        exact ⟨Or.inl (le_refl _), hw⟩

/-- Witness for C6: a roulette survival from weight 0.005 with draw 0.05 on
the base photon state. -/
theorem weight_monotone_claim_witness :
    ((applyWeightOp { baseState with weight := 1 / 200 } (.rouletteOp (1 / 20))).weight ≤
        ({ baseState with weight := 1 / 200 } : PhotonState).weight ∨
      ∃ wpre, 0 ≤ wpre ∧ wpre ≤ ({ baseState with weight := 1 / 200 } : PhotonState).weight ∧
        wpre < THRESHOLD ∧
        (applyWeightOp { baseState with weight := 1 / 200 } (.rouletteOp (1 / 20))).weight =
          wpre / CHANCE ∧ wpre / CHANCE = 10 * wpre) ∧
    0 ≤ (applyWeightOp { baseState with weight := 1 / 200 } (.rouletteOp (1 / 20))).weight :=
  weight_monotone_claim { baseState with weight := 1 / 200 } (.rouletteOp (1 / 20))
    (by refine ⟨by norm_num [baseState, layer0], by norm_num [baseState, layer0], ?_⟩
        intro a ha
        simp [baseState, layer0] at ha)
    (by norm_num) trivial


/-! ### C7 — direction-cosine norm after spin -/

/-- The Henyey-Greenstein sampled cosine lies in [-1, 1] for anisotropy
g in [-1, 1] and a draw u1 in (0, 1). -/
lemma spinCosTheta_bounds (g u1 : ℝ) (hg0 : -1 ≤ g) (hg1 : g ≤ 1)
    (hu0 : 0 < u1) (hu1 : u1 < 1) :
    -1 ≤ spinCosTheta g u1 ∧ spinCosTheta g u1 ≤ 1 := by
  unfold spinCosTheta
  by_cases hg : g = 0
  · rw [if_pos hg]
    constructor <;> linarith
  · rw [if_neg hg]
    dsimp only
    rcases lt_or_gt_of_ne hg with hneg | hpos
    · have hD : 0 < 1 - g + 2 * g * u1 := by nlinarith
      have hkey : (1 + g) * u1 * g ≤ 0 :=
        mul_nonpos_of_nonneg_of_nonpos (mul_nonneg (by linarith) hu0.le) hneg.le
      have ht0 : 1 + g ≤ (1 - g * g) / (1 - g + 2 * g * u1) := by
        rw [le_div_iff₀ hD]
        nlinarith
      have ht1 : (1 - g * g) / (1 - g + 2 * g * u1) ≤ 1 - g := by
        rw [div_le_iff₀ hD]
        nlinarith
      have htn : 0 ≤ (1 - g * g) / (1 - g + 2 * g * u1) := by
        apply div_nonneg _ (le_of_lt hD)
        nlinarith
      have h2g : 2 * g < 0 := by linarith
      constructor
      · rw [le_div_iff_of_neg h2g]
        nlinarith
      · rw [div_le_iff_of_neg h2g]
        nlinarith
    · have hD : 0 < 1 - g + 2 * g * u1 := by nlinarith
      have hkey : 0 ≤ (1 - g) * g * (1 - u1) :=
        mul_nonneg (mul_nonneg (by linarith) hpos.le) (by linarith)
      have ht0 : 1 - g ≤ (1 - g * g) / (1 - g + 2 * g * u1) := by
        rw [le_div_iff₀ hD]
        nlinarith
      have ht1 : (1 - g * g) / (1 - g + 2 * g * u1) ≤ 1 + g := by
        rw [div_le_iff₀ hD]
        nlinarith
      have htn : 0 ≤ (1 - g * g) / (1 - g + 2 * g * u1) := by
        apply div_nonneg _ (le_of_lt hD)
        nlinarith
      have h2g : (0 : ℝ) < 2 * g := by linarith
      constructor
      · rw [le_div_iff₀ h2g]
        nlinarith
      · rw [div_le_iff₀ h2g]
        nlinarith

/-- sin_theta squares to one minus the squared cosine. -/
lemma spinSinTheta_sq (g u1 : ℝ) (hg0 : -1 ≤ g) (hg1 : g ≤ 1)
    (hu0 : 0 < u1) (hu1 : u1 < 1) :
    spinSinTheta g u1 * spinSinTheta g u1 =
      1 - spinCosTheta g u1 * spinCosTheta g u1 := by
  obtain ⟨h0, h1⟩ := spinCosTheta_bounds g u1 hg0 hg1 hu0 hu1
  exact Real.mul_self_sqrt (by nlinarith)

/-- sin_psi squares to one minus the squared cosine (both branches). -/
lemma spinSinPsi_sq (u2 : ℝ) :
    spinSinPsi u2 * spinSinPsi u2 = 1 - spinCosPsi u2 * spinCosPsi u2 := by
  have h0 : -1 ≤ spinCosPsi u2 := Real.neg_one_le_cos _
  have h1 : spinCosPsi u2 ≤ 1 := Real.cos_le_one _
  have hnn : 0 ≤ 1 - spinCosPsi u2 * spinCosPsi u2 := by nlinarith
  unfold spinSinPsi
  split_ifs
  · exact Real.mul_self_sqrt hnn
  · rw [neg_mul_neg]
    exact Real.mul_self_sqrt hnn

/-- Algebraic core of the near-perpendicular branch: the new direction is
exactly unit. -/
lemma spin_norm_core_deg (a b c sp sgn : ℝ) (ha2 : a * a = 1 - b * b)
    (hsp2 : sp * sp = 1 - c * c) (hsgn : sgn = 1 ∨ sgn = -1) :
    (a * c) ^ 2 + (a * sp) ^ 2 + (b * sgn) ^ 2 = 1 := by
  rcases hsgn with h | h <;> subst h <;> linear_combination a ^ 2 * hsp2 + ha2

/-- Algebraic core of the usual branch: on a unit input direction the
rotated direction is exactly unit. -/
lemma spin_norm_core_reg (a b c sp t dx dy dz : ℝ) (ha2 : a * a = 1 - b * b)
    (hsp2 : sp * sp = 1 - c * c) (ht2 : t * t = 1 - dz * dz) (htne : t ≠ 0)
    (hR4 : dx ^ 2 + dy ^ 2 + dz ^ 2 = 1) :
    (a * (dx * dz * c - dy * sp) / t + dx * b) ^ 2 +
      (a * (dy * dz * c + dx * sp) / t + dy * b) ^ 2 +
      (-a * c * t + dz * b) ^ 2 = 1 := by
  have h1 : a * (dx * dz * c - dy * sp) / t + dx * b =
      (a * (dx * dz * c - dy * sp) + dx * b * t) / t := by
    field_simp
  have h2 : a * (dy * dz * c + dx * sp) / t + dy * b =
      (a * (dy * dz * c + dx * sp) + dy * b * t) / t := by
    field_simp
  rw [h1, h2, div_pow, div_pow, div_add_div_same,
    div_add' _ _ _ (pow_ne_zero 2 htne), div_eq_one_iff_eq (pow_ne_zero 2 htne)]
  linear_combination (t ^ 2) * ha2 + (a ^ 2 * t ^ 2) * hsp2 +
    (t ^ 2 * (b ^ 2 + a ^ 2 * c ^ 2) -
      (a ^ 2 * (dz ^ 2 * c ^ 2 + sp ^ 2) + 2 * a * b * t * dz * c + b ^ 2 * t ^ 2)) * ht2 +
    (a ^ 2 * (dz ^ 2 * c ^ 2 + sp ^ 2) + 2 * a * b * t * dz * c + b ^ 2 * t ^ 2) * hR4

/-- After one spin with valid parameters on a direction that is either unit
or has |dz| within ONE_MINUS_COSZERO of 1, the squared norm is exactly 1. -/
lemma spinDir_normSq (g u1 u2 : ℝ) (hg0 : -1 ≤ g) (hg1 : g ≤ 1)
    (hu0 : 0 < u1) (hu1 : u1 < 1) (d : Dir)
    (hd : normSq d = 1 ∨ 1 - |d.dz| ≤ ONE_MINUS_COSZERO) :
    normSq (spinDir g u1 u2 d) = 1 := by
  have ha2 := spinSinTheta_sq g u1 hg0 hg1 hu0 hu1
  have hsp2 := spinSinPsi_sq u2
  unfold spinDir
  by_cases hdeg : 1 - |d.dz| ≤ ONE_MINUS_COSZERO
  · rw [if_pos hdeg]
    unfold normSq
    dsimp only
    apply spin_norm_core_deg _ _ _ _ _ ha2 hsp2
    unfold SIGN
    split_ifs
    · exact Or.inl rfl
    · exact Or.inr rfl
  · rw [if_neg hdeg]
    have hunit : normSq d = 1 := hd.resolve_right hdeg
    have habs : |d.dz| < 1 := by
      unfold ONE_MINUS_COSZERO at hdeg
      push_neg at hdeg
      calc |d.dz| < 1 - 1e-12 := by linarith
        _ < 1 := by norm_num
    have hzz : d.dz * d.dz < 1 := by
      nlinarith [sq_abs d.dz, sq_nonneg d.dz, abs_nonneg d.dz]
    have htpos : 0 < spinTemp d := Real.sqrt_pos.mpr (by linarith)
    have ht2 : spinTemp d * spinTemp d = 1 - d.dz * d.dz :=
      Real.mul_self_sqrt (by linarith)
    unfold normSq at hunit ⊢
    dsimp only
    exact spin_norm_core_reg _ _ _ _ _ _ _ _ ha2 hsp2 ht2 (ne_of_gt htpos) hunit

/-- Directions reachable from injection are unit or have |dz| within
ONE_MINUS_COSZERO of 1 (the injection direction has dz = 1 exactly, and
every spin output is exactly unit). -/
lemma reachableDir_inv (d : Dir) (hd : ReachableDir d) :
    normSq d = 1 ∨ 1 - |d.dz| ≤ ONE_MINUS_COSZERO := by
  induction hd with
  | init u1 u2 h0 h1 =>
      right
      show 1 - |(1 : ℝ)| ≤ ONE_MINUS_COSZERO
      rw [abs_one]
      unfold ONE_MINUS_COSZERO
      norm_num
  | spin g u1 u2 d hg0 hg1 hu0 hu1 hd ih =>
      exact Or.inl (spinDir_normSq g u1 u2 hg0 hg1 hu0 hu1 d ih)
  | reflX d hd ih =>
      rcases ih with h | h
      · left
        unfold normSq at h ⊢
        dsimp only
        linear_combination h
      · exact Or.inr h
  | reflY d hd ih =>
      rcases ih with h | h
      · left
        unfold normSq at h ⊢
        dsimp only
        linear_combination h
      · exact Or.inr h
  | reflZ d hd ih =>
      rcases ih with h | h
      · left
        unfold normSq at h ⊢
        dsimp only
        linear_combination h
      · right
        show 1 - |(-d.dz : ℝ)| ≤ ONE_MINUS_COSZERO
        rw [abs_neg]
        exact h

/-- C7: after every execution of spin() (anisotropy g in [-1,1], RNG draws
in (0,1)) on a photon direction reachable from injection — whose initial
direction is (sin θ·cos ψ, sin θ·sin ψ, 1.0) — the squared norm of the
direction cosines lies in [1 − 1e-9, 1 + 1e-9] (it is exactly 1 in the
real-number idealisation). -/
theorem spin_norm_claim (d : Dir) (hd : ReachableDir d) (g u1 u2 : ℝ)
    (hg0 : -1 ≤ g) (hg1 : g ≤ 1) (hu0 : 0 < u1) (hu1 : u1 < 1) :
    1 - 1e-9 ≤ normSq (spinDir g u1 u2 d) ∧
      normSq (spinDir g u1 u2 d) ≤ 1 + 1e-9 := by
  have h := spinDir_normSq g u1 u2 hg0 hg1 hu0 hu1 d (reachableDir_inv d hd)
  rw [h]
  constructor <;> norm_num

/-- Witness for C7: the first spin after injection with g = 0 and both
draws 1/2. -/
theorem spin_norm_claim_witness :
    1 - 1e-9 ≤ normSq (spinDir 0 (1 / 2) (1 / 2) (initDir (1 / 2) 0)) ∧
      normSq (spinDir 0 (1 / 2) (1 / 2) (initDir (1 / 2) 0)) ≤ 1 + 1e-9 :=
  spin_norm_claim (initDir (1 / 2) 0)
    (ReachableDir.init (1 / 2) 0 (by norm_num) (by norm_num))
    0 (1 / 2) (1 / 2) (by norm_num) (by norm_num) (by norm_num) (by norm_num)

end MCBoost
